import Mathlib

/-!
Verification of the W-2 document extraction pipeline
(`backend/app/w2_parser.py`) against its natural-language specification.

The embedding works over `List Char` (Python `str`), models Python floats
as exact decimal rationals (`ℚ`), and models the fallible paths
(`W2ParseError`, `ValueError` from `float(...)`) with `Except`.
Regular-expression search (`re.search` with `re.I`) is embedded as an
executable backtracking matcher over a regex AST, faithful to the
leftmost-search, greedy/lazy, first-match-wins semantics the code relies on.
-/

/-- Exceptions that can escape the parser's extraction code:
`W2ParseError` (the repo's typed parse error from `app.errors`) and
Python's `ValueError` as raised by a failing `float(...)` conversion. -/
inductive PyErr where
  | w2ParseError
  | valueError
deriving DecidableEq, Repr

/-- A Python dict value in the extraction result: `None`, a string, or a
float (modelled as an exact decimal rational). -/
inductive FieldVal where
  | none
  | str (s : List Char)
  | num (q : ℚ)
deriving DecidableEq, Repr

/-- A Python dict with string keys, in insertion order. -/
abbrev W2Record := List (String × FieldVal)

/-- `data[k] = v`: overwrite in place if the key exists, else append. -/
def aset (k : String) (v : FieldVal) : W2Record → W2Record
  | [] => [(k, v)]
  | (k', v') :: rest => if k == k' then (k, v) :: rest else (k', v') :: aset k v rest

/-- `k in data`. -/
def ahas (k : String) : W2Record → Bool
  | [] => false
  | (k', _) :: rest => k == k' || ahas k rest

/-- `data[k]` as a lookup. -/
def alookup (k : String) : W2Record → Option FieldVal
  | [] => Option.none
  | (k', v') :: rest => if k == k' then some v' else alookup k rest

/-- `if k not in data: data[k] = v` (one iteration of the default loops in
`_parse_fallback_format`). -/
def setdefault (k : String) (v : FieldVal) (d : W2Record) : W2Record :=
  if ahas k d then d else aset k v d

/-- The keys of a record in order. -/
def keysOf (d : W2Record) : List String := d.map Prod.fst

/-! ### Character and string helpers (Python `str` semantics) -/

/-- Python whitespace (`\s`, `str.strip`): space, tab, newline, CR, VT, FF. -/
def isSpaceCh (c : Char) : Bool :=
  c == ' ' || c == '\t' || c == '\n' || c == '\r' || c == '\x0b' || c == '\x0c'

def isDigitCh (c : Char) : Bool := '0' ≤ c && c ≤ '9'

/-- Python `str.strip()`. -/
def pyStrip (cs : List Char) : List Char :=
  ((cs.dropWhile isSpaceCh).reverse.dropWhile isSpaceCh).reverse

def lowerCh (c : Char) : Char :=
  if 'A' ≤ c && c ≤ 'Z' then Char.ofNat (c.toNat + 32) else c

def upperCh (c : Char) : Char :=
  if 'a' ≤ c && c ≤ 'z' then Char.ofNat (c.toNat - 32) else c

/-- `needle` occurs starting at the head of `hay`. -/
def startsWithL : List Char → List Char → Bool
  | [], _ => true
  | _ :: _, [] => false
  | n :: ns, h :: hs => n == h && startsWithL ns hs

/-- Python's case-sensitive substring test `needle in hay`. -/
def containsSub (needle : List Char) : List Char → Bool
  | [] => needle.isEmpty
  | c :: rest => startsWithL needle (c :: rest) || containsSub needle rest

/-! ### Whitespace normalization: `re.sub(r"\s+", " ", txt)` -/

/-- Worker for `_clean_text`: `prev` records whether the previous character
belonged to a whitespace run already replaced by a single space. -/
def clean_aux : Bool → List Char → List Char
  | _, [] => []
  | prev, c :: cs =>
    if isSpaceCh c then
      if prev then clean_aux true cs else ' ' :: clean_aux true cs
    else c :: clean_aux false cs

/-- `W2Parser._clean_text`: collapse every whitespace run to one space. -/
def clean_text (txt : List Char) : List Char := clean_aux false txt

/-! ### Python `float(...)` on the monetary capture alphabet

The parser only ever feeds `float` strings captured by character classes
drawn from digits, `,`, `.` (commas and `$` being removed first), so the
decimal-notation fragment of `float` suffices: optional digits, at most one
dot, at least one digit overall.  Values are exact decimal rationals. -/

def digitVal (c : Char) : ℕ := c.toNat - 48

def digitsVal (cs : List Char) : ℕ := cs.foldl (fun a c => a * 10 + digitVal c) 0

def floatCharOk (c : Char) : Bool := isDigitCh c || c == '.'

/-- Python `float(s)` restricted to digit/dot strings; `none` is `ValueError`. -/
def pyFloat (cs : List Char) : Option ℚ :=
  if cs.all floatCharOk then
    match cs.count '.' with
    | 0 => if cs.isEmpty then Option.none else some ((digitsVal cs : ℕ) : ℚ)
    | 1 =>
      let a := cs.takeWhile (fun c => !(c == '.'))
      let b := (cs.dropWhile (fun c => !(c == '.'))).tail
      if a.isEmpty && b.isEmpty then Option.none
      else some (((digitsVal (a ++ b) : ℕ) : ℚ) / 10 ^ b.length)
    | _ => Option.none
  else Option.none

/-- The monetary normalization of `W2Parser._parse_clean_format.extract`:
`.replace(',', '').replace('$', '').strip()`. -/
def normalize_money (cs : List Char) : List Char :=
  pyStrip (cs.filter (fun c => !(c == ',') && !(c == '$')))

/-- Numeric coercion: normalize then parse as a decimal (spec §4.5). -/
def money_coerce (cs : List Char) : Option ℚ := pyFloat (normalize_money cs)

/-! ### Rendering a decimal value back to a string (for the idempotence
claim): the value `n / 10^k` prints as `<n div 10^k>.<n mod 10^k padded to
k digits>`, the shape produced by serializing a non-negative decimal. -/

def digitChar (d : ℕ) : Char := Char.ofNat (48 + d)

/-- Base-10 digits of `n`, least significant first; the first argument is
fuel (`n` itself suffices). -/
def natDigsRevAux : ℕ → ℕ → List ℕ
  | 0, _ => []
  | f + 1, n => if n = 0 then [] else (n % 10) :: natDigsRevAux f (n / 10)

def natDigsRev (n : ℕ) : List ℕ := natDigsRevAux n n

/-- Decimal rendering of a natural number (`"0"` for zero). -/
def renderNat (n : ℕ) : List Char :=
  if n = 0 then ['0'] else ((natDigsRev n).map digitChar).reverse

def padZeros (k : ℕ) (cs : List Char) : List Char :=
  List.replicate (k - cs.length) '0' ++ cs

/-- Serialize the decimal value `n / 10^k` back to a decimal string. -/
def to_decimal_string (n k : ℕ) : List Char :=
  renderNat (n / 10 ^ k) ++ '.' :: padZeros k (renderNat (n % 10 ^ k))

/-! ### A backtracking regex matcher (`re.search` with `re.I`)

Every `re.search` call in `w2_parser.py` passes `re.I`, so case folding is
built into literal and class matching.  The AST covers exactly the
constructs the source patterns use: literals, character classes (ranges),
`.`, concatenation, alternation (for `?`), greedy and lazy `*`, and
capturing groups.  Counted repetitions (`{n}`, `{9,}`) are desugared when
patterns are built.  Every iteration of a starred subpattern in the source
consumes at least one character, so the matcher requires progress in star
iterations (ruling out zero-width loops without changing behaviour). -/

inductive Rx where
  | eps
  | ch (c : Char)
  | cls (rs : List (Char × Char))
  | dot
  | seq (a b : Rx)
  | alt (a b : Rx)
  | star (r : Rx)
  | lazyStar (r : Rx)
  | grp (i : ℕ) (r : Rx)
deriving Repr

/-- Captured groups: most recent assignment first. -/
abbrev Caps := List (ℕ × List Char)

def setCap (i : ℕ) (v : List Char) (caps : Caps) : Caps := (i, v) :: caps

/-- `m.group(i)` (all groups in the source participate whenever the whole
pattern matches; a missing entry yields the empty string). -/
def capGet (i : ℕ) (caps : Caps) : List Char :=
  match caps.find? (fun p => p.1 == i) with
  | some p => p.2
  | Option.none => []

def inRanges (c : Char) (rs : List (Char × Char)) : Bool :=
  rs.any (fun p => p.1 ≤ c && c ≤ p.2)

/-- Class membership under `re.I`: the character or one of its case
variants lies in a range. -/
def clsMatch (c : Char) (rs : List (Char × Char)) : Bool :=
  inRanges c rs || inRanges (lowerCh c) rs || inRanges (upperCh c) rs

/-- Size of a pattern, used to compute a fuel bound. -/
def rxSize : Rx → ℕ
  | .eps => 1
  | .ch _ => 1
  | .cls _ => 1
  | .dot => 1
  | .seq a b => rxSize a + rxSize b + 1
  | .alt a b => rxSize a + rxSize b + 1
  | .star r => rxSize r + 1
  | .lazyStar r => rxSize r + 1
  | .grp _ r => rxSize r + 1

/-- Backtracking matcher in continuation style.  Alternation prefers the
left branch, `star` is greedy, `lazyStar` prefers the shortest match, and
a group records the span it consumed — Python `re` semantics for these
patterns.  The fuel only bounds recursion depth; `reSearch` supplies
enough for any match attempt. -/
def mat : ℕ → Rx → List Char → Caps → (List Char → Caps → Option Caps) → Option Caps
  | 0, _, _, _, _ => Option.none
  | f + 1, re, cs, caps, k =>
    match re with
    | .eps => k cs caps
    | .ch c =>
      match cs with
      | [] => Option.none
      | c' :: rest => if lowerCh c == lowerCh c' then k rest caps else Option.none
    | .cls rs =>
      match cs with
      | [] => Option.none
      | c' :: rest => if clsMatch c' rs then k rest caps else Option.none
    | .dot =>
      match cs with
      | [] => Option.none
      | c' :: rest => if c' == '\n' then Option.none else k rest caps
    | .seq a b => mat f a cs caps (fun cs' caps' => mat f b cs' caps' k)
    | .alt a b =>
      match mat f a cs caps k with
      | some r => some r
      | Option.none => mat f b cs caps k
    | .star r =>
      match mat f r cs caps (fun cs' caps' =>
          if cs'.length < cs.length then mat f (.star r) cs' caps' k else Option.none) with
      | some res => some res
      | Option.none => k cs caps
    | .lazyStar r =>
      match k cs caps with
      | some res => some res
      | Option.none =>
        mat f r cs caps (fun cs' caps' =>
          if cs'.length < cs.length then mat f (.lazyStar r) cs' caps' k else Option.none)
    | .grp i r =>
      mat f r cs caps (fun cs' caps' =>
        k cs' (setCap i (cs.take (cs.length - cs'.length)) caps'))

/-- Try an anchored match at each start position, leftmost first. -/
def searchList (fuel : ℕ) (r : Rx) : List Char → Option Caps
  | [] =>
    match mat fuel r [] [] (fun _ caps => some caps) with
    | some caps => some caps
    | Option.none => Option.none
  | c :: rest =>
    match mat fuel r (c :: rest) [] (fun _ caps => some caps) with
    | some caps => some caps
    | Option.none => searchList fuel r rest

/-- `re.search(pattern, txt, re.I)`, returning the captures on success. -/
def reSearch (r : Rx) (cs : List Char) : Option Caps :=
  searchList ((rxSize r + 2) * (cs.length + 2)) r cs

/-! #### Pattern constructors and the source's patterns -/

def rxLit (s : String) : Rx := (s.data.map Rx.ch).foldr Rx.seq Rx.eps

def rxSeq (l : List Rx) : Rx := l.foldr Rx.seq Rx.eps

def rxOpt (r : Rx) : Rx := Rx.alt r Rx.eps

def rxRepN (n : ℕ) (r : Rx) : Rx := (List.replicate n r).foldr Rx.seq Rx.eps

def rxPlus (r : Rx) : Rx := Rx.seq r (Rx.star r)

/-- `{n,}`: at least `n` repetitions, greedy. -/
def rxAtLeast (n : ℕ) (r : Rx) : Rx := Rx.seq (rxRepN n r) (Rx.star r)

/-- `\s` as ranges. -/
def wsRanges : List (Char × Char) :=
  [(' ', ' '), ('\t', '\t'), ('\n', '\n'), ('\r', '\r'), ('\x0b', '\x0b'), ('\x0c', '\x0c')]

/-- `[:\s]*` -/
def colonWs : Rx := Rx.star (Rx.cls ((':', ':') :: wsRanges))

/-- `\s*` / `\s+` -/
def wsStar : Rx := Rx.star (Rx.cls wsRanges)
def wsPlus : Rx := rxPlus (Rx.cls wsRanges)

def digitCls : Rx := Rx.cls [('0', '9')]

/-- `[0-9,\.]+` (the clean-dialect monetary capture). -/
def moneyCls : Rx := rxPlus (Rx.cls [('0', '9'), (',', ','), ('.', '.')])

/-- `[0-9,]+\.?[0-9]*` (the fallback monetary capture). -/
def fallbackMoneyCap : Rx :=
  rxSeq [rxPlus (Rx.cls [('0', '9'), (',', ',')]), rxOpt (Rx.ch '.'), Rx.star digitCls]

/-- `Employee'?s? social security number[:\s]*([0-9\-]{9,})` -/
def patSSN : Rx :=
  rxSeq [rxLit "Employee", rxOpt (Rx.ch '\''), rxOpt (Rx.ch 's'),
    rxLit " social security number", colonWs,
    Rx.grp 1 (rxAtLeast 9 (Rx.cls [('0', '9'), ('-', '-')]))]

/-- `Employer identification number[:\s]*([0-9\-]{9,})` -/
def patEIN : Rx :=
  rxSeq [rxLit "Employer identification number", colonWs,
    Rx.grp 1 (rxAtLeast 9 (Rx.cls [('0', '9'), ('-', '-')]))]

/-- `Employer'?s? name and address:\s*([A-Za-z0-9 ,.&'-]+)` -/
def patEmpName : Rx :=
  rxSeq [rxLit "Employer", rxOpt (Rx.ch '\''), rxOpt (Rx.ch 's'),
    rxLit " name and address:", wsStar,
    Rx.grp 1 (rxPlus (Rx.cls [('A', 'Z'), ('a', 'z'), ('0', '9'), (' ', ' '),
      (',', ','), ('.', '.'), ('&', '&'), ('\'', '\''), ('-', '-')]))]

/-- `Employee'?s? name and address:\s*([A-Za-z]+)` -/
def patFirst : Rx :=
  rxSeq [rxLit "Employee", rxOpt (Rx.ch '\''), rxOpt (Rx.ch 's'),
    rxLit " name and address:", wsStar,
    Rx.grp 1 (rxPlus (Rx.cls [('A', 'Z'), ('a', 'z')]))]

/-- `Employee'?s? name and address:\s*[A-Za-z]+ ([A-Za-z]+)` -/
def patLast : Rx :=
  rxSeq [rxLit "Employee", rxOpt (Rx.ch '\''), rxOpt (Rx.ch 's'),
    rxLit " name and address:", wsStar,
    rxPlus (Rx.cls [('A', 'Z'), ('a', 'z')]), Rx.ch ' ',
    Rx.grp 1 (rxPlus (Rx.cls [('A', 'Z'), ('a', 'z')]))]

/-- `1[.\)]? Wages, tips, other compensation[:\s]*\$?([0-9,\.]+)` -/
def patWages : Rx :=
  rxSeq [Rx.ch '1', rxOpt (Rx.cls [('.', '.'), (')', ')')]),
    rxLit " Wages, tips, other compensation", colonWs, rxOpt (Rx.ch '$'),
    Rx.grp 1 moneyCls]

/-- `2[.\)]? Federal income tax withheld[:\s]*\$?([0-9,\.]+)` -/
def patFed : Rx :=
  rxSeq [Rx.ch '2', rxOpt (Rx.cls [('.', '.'), (')', ')')]),
    rxLit " Federal income tax withheld", colonWs, rxOpt (Rx.ch '$'),
    Rx.grp 1 moneyCls]

/-- `3[.\)]? Social security wages[:\s]*\$?([0-9,\.]+)` -/
def patSSW : Rx :=
  rxSeq [Rx.ch '3', rxOpt (Rx.cls [('.', '.'), (')', ')')]),
    rxLit " Social security wages", colonWs, rxOpt (Rx.ch '$'),
    Rx.grp 1 moneyCls]

/-- `4[.\)]? Social security tax withheld[:\s]*\$?([0-9,\.]+)` -/
def patSST : Rx :=
  rxSeq [Rx.ch '4', rxOpt (Rx.cls [('.', '.'), (')', ')')]),
    rxLit " Social security tax withheld", colonWs, rxOpt (Rx.ch '$'),
    Rx.grp 1 moneyCls]

/-- `5[.\)]? Medicare wages and tips[:\s]*\$?([0-9,\.]+)` -/
def patMW : Rx :=
  rxSeq [Rx.ch '5', rxOpt (Rx.cls [('.', '.'), (')', ')')]),
    rxLit " Medicare wages and tips", colonWs, rxOpt (Rx.ch '$'),
    Rx.grp 1 moneyCls]

/-- `6[.\)]? Medicare tax withheld[:\s]*\$?([0-9,\.]+)` -/
def patMT : Rx :=
  rxSeq [Rx.ch '6', rxOpt (Rx.cls [('.', '.'), (')', ')')]),
    rxLit " Medicare tax withheld", colonWs, rxOpt (Rx.ch '$'),
    Rx.grp 1 moneyCls]

/-- `([A-Z]{2}) [0-9]{5}` -/
def patState : Rx :=
  rxSeq [Rx.grp 1 (rxRepN 2 (Rx.cls [('A', 'Z')])), Rx.ch ' ', rxRepN 5 digitCls]

/-- The jumbled EIN/wages/withholding block:
`Employer identitication number \(EIN\) 1 Wages, tips, other compensation 2
Federal income tax withheld\s*([A-Z0-9]+)\s+([0-9]+)\s+([0-9]+)` -/
def patEinBlockJ : Rx :=
  rxSeq [rxLit "Employer identitication number (EIN) 1 Wages, tips, other compensation 2 Federal income tax withheld",
    wsStar, Rx.grp 1 (rxPlus (Rx.cls [('A', 'Z'), ('0', '9')])),
    wsPlus, Rx.grp 2 (rxPlus digitCls), wsPlus, Rx.grp 3 (rxPlus digitCls)]

/-- `3 Social security wages 4 Social security tax withheld\s*([0-9]+)\s+([0-9]+)` -/
def patSsBlockJ : Rx :=
  rxSeq [rxLit "3 Social security wages 4 Social security tax withheld",
    wsStar, Rx.grp 1 (rxPlus digitCls), wsPlus, Rx.grp 2 (rxPlus digitCls)]

/-- `5 Medicare wages and tips 6 Medicare tax withheld\s*([0-9]+)\s+([0-9]+)` -/
def patMedBlockJ : Rx :=
  rxSeq [rxLit "5 Medicare wages and tips 6 Medicare tax withheld",
    wsStar, Rx.grp 1 (rxPlus digitCls), wsPlus, Rx.grp 2 (rxPlus digitCls)]

/-- `ZIP code\s*(.*?)3 Social security wages` -/
def patAddrBlockJ : Rx :=
  rxSeq [rxLit "ZIP code", wsStar, Rx.grp 1 (Rx.lazyStar Rx.dot),
    rxLit "3 Social security wages"]

/-- `Employee'?s? social security number.*?([0-9]{3}-[0-9]{2}-[0-9]{4})` -/
def patSsnJ : Rx :=
  rxSeq [rxLit "Employee", rxOpt (Rx.ch '\''), rxOpt (Rx.ch 's'),
    rxLit " social security number", Rx.lazyStar Rx.dot,
    Rx.grp 1 (rxSeq [rxRepN 3 digitCls, Rx.ch '-', rxRepN 2 digitCls, Rx.ch '-',
      rxRepN 4 digitCls])]

/-- SSN with dashes: `([0-9]{3}-[0-9]{2}-[0-9]{4})` -/
def patSsnDashF : Rx :=
  Rx.grp 1 (rxSeq [rxRepN 3 digitCls, Rx.ch '-', rxRepN 2 digitCls, Rx.ch '-',
    rxRepN 4 digitCls])

/-- Bare 9-digit SSN: `([0-9]{9})` -/
def patSsnBareF : Rx := Rx.grp 1 (rxRepN 9 digitCls)

/-- `EIN.*?([0-9]{2}-[0-9]{7})` -/
def patEin1F : Rx :=
  rxSeq [rxLit "EIN", Rx.lazyStar Rx.dot,
    Rx.grp 1 (rxSeq [rxRepN 2 digitCls, Rx.ch '-', rxRepN 7 digitCls])]

/-- `identification.*?([0-9]{2}-[0-9]{7})` -/
def patEin2F : Rx :=
  rxSeq [rxLit "identification", Rx.lazyStar Rx.dot,
    Rx.grp 1 (rxSeq [rxRepN 2 digitCls, Rx.ch '-', rxRepN 7 digitCls])]

/-- `Wages.*?([0-9,]+\.?[0-9]*)` -/
def patWages1F : Rx := rxSeq [rxLit "Wages", Rx.lazyStar Rx.dot, Rx.grp 1 fallbackMoneyCap]

/-- `1.*?compensation.*?([0-9,]+\.?[0-9]*)` -/
def patWages2F : Rx :=
  rxSeq [Rx.ch '1', Rx.lazyStar Rx.dot, rxLit "compensation", Rx.lazyStar Rx.dot,
    Rx.grp 1 fallbackMoneyCap]

/-- `Federal.*?withheld.*?([0-9,]+\.?[0-9]*)` -/
def patFed1F : Rx :=
  rxSeq [rxLit "Federal", Rx.lazyStar Rx.dot, rxLit "withheld", Rx.lazyStar Rx.dot,
    Rx.grp 1 fallbackMoneyCap]

/-- `2.*?Federal.*?([0-9,]+\.?[0-9]*)` -/
def patFed2F : Rx :=
  rxSeq [Rx.ch '2', Rx.lazyStar Rx.dot, rxLit "Federal", Rx.lazyStar Rx.dot,
    Rx.grp 1 fallbackMoneyCap]

/-! ### The three dialect handlers -/

/-- `W2Parser._parse_clean_format.extract(pattern, is_money)`: search, then
normalize the capture; a monetary capture goes through `float(...)`, whose
failure is an uncaught `ValueError`; a missing match falls back to
`None` / `0.0`. -/
def extract (p : Rx) ( is_money : Bool) (t : List Char) : Except PyErr FieldVal :=
  match reSearch p t with
  | some m =>
    let val := normalize_money (capGet 1 m)
    if is_money then
      match pyFloat val with
      | some v => .ok (.num v)
      | Option.none => .error .valueError
    else .ok (.str val)
  | Option.none => .ok (if is_money then .num 0 else FieldVal.none)

/-- `W2Parser._parse_clean_format`.  The binds follow the evaluation order
of the Python dict literal; only monetary extractions can fail. -/
def parse_clean_format (t : List Char) : Except PyErr W2Record := do
  let ssn ← extract patSSN false t
  let ein ← extract patEIN false t
  let ename ← extract patEmpName false t
  let efirst ← extract patFirst false t
  let elast ← extract patLast false t
  let wages ← extract patWages true t
  let fedw ← extract patFed true t
  let ssw ← extract patSSW true t
  let sst ← extract patSST true t
  let mw ← extract patMW true t
  let mt ← extract patMT true t
  let st ← extract patState false t
  pure [("employee_ssn", ssn), ("employer_ein", ein), ("employer_name", ename),
    ("employee_first_name", efirst), ("employee_last_name", elast),
    ("wages", wages), ("federal_withholding", fedw),
    ("social_security_wages", ssw), ("social_security_tax", sst),
    ("medicare_wages", mw), ("medicare_tax", mt), ("state", st),
    ("employer_state_id", FieldVal.none), ("state_wages", FieldVal.num 0),
    ("state_withholding", FieldVal.num 0)]

/-- Bare `float(...)` on a raw capture (used by `_parse_jumbled_format`,
where captures are digit-only and the call is unguarded). -/
def toF (cs : List Char) : Except PyErr ℚ :=
  match pyFloat cs with
  | some v => .ok v
  | Option.none => .error .valueError

/-- Jumbled block 1: EIN, wages, federal withholding (lines 92-102). -/
def j_block_ein (t : List Char) : Except PyErr W2Record :=
  match reSearch patEinBlockJ t with
  | some m => do
    let w ← toF (capGet 2 m)
    let f ← toF (capGet 3 m)
    pure (aset "federal_withholding" (.num f) (aset "wages" (.num w)
      (aset "employer_ein" (.str (capGet 1 m)) [])))
  | Option.none =>
    pure (aset "federal_withholding" (.num 0) (aset "wages" (.num 0)
      (aset "employer_ein" FieldVal.none [])))

/-- Jumbled block 2: social security wages and tax (lines 105-113). -/
def j_block_ss (t : List Char) (d : W2Record) : Except PyErr W2Record :=
  match reSearch patSsBlockJ t with
  | some m => do
    let a ← toF (capGet 1 m)
    let b ← toF (capGet 2 m)
    pure (aset "social_security_tax" (.num b) (aset "social_security_wages" (.num a) d))
  | Option.none =>
    pure (aset "social_security_tax" (.num 0) (aset "social_security_wages" (.num 0) d))

/-- Jumbled block 3: medicare wages and tax (lines 116-124). -/
def j_block_med (t : List Char) (d : W2Record) : Except PyErr W2Record :=
  match reSearch patMedBlockJ t with
  | some m => do
    let a ← toF (capGet 1 m)
    let b ← toF (capGet 2 m)
    pure (aset "medicare_tax" (.num b) (aset "medicare_wages" (.num a) d))
  | Option.none =>
    pure (aset "medicare_tax" (.num 0) (aset "medicare_wages" (.num 0) d))

/-- Jumbled block 4: employer name/address between label boundaries
(lines 127-132). -/
def j_block_addr (t : List Char) (d : W2Record) : W2Record :=
  match reSearch patAddrBlockJ t with
  | some m => aset "employer_name" (.str (pyStrip (capGet 1 m))) d
  | Option.none => aset "employer_name" FieldVal.none d

/-- Jumbled block 5: employee SSN (lines 135-139). -/
def j_block_ssn (t : List Char) (d : W2Record) : W2Record :=
  match reSearch patSsnJ t with
  | some m => aset "employee_ssn" (.str (capGet 1 m)) d
  | Option.none => aset "employee_ssn" FieldVal.none d

/-- `W2Parser._parse_jumbled_format` (lines 86-151). -/
def parse_jumbled_format (t : List Char) : Except PyErr W2Record := do
  let d1 ← j_block_ein t
  let d2 ← j_block_ss t d1
  let d3 ← j_block_med t d2
  let d4 := j_block_addr t d3
  let d5 := j_block_ssn t d4
  pure (aset "state_withholding" (.num 0) (aset "state_wages" (.num 0)
    (aset "employer_state_id" FieldVal.none (aset "state" FieldVal.none
    (aset "employee_last_name" FieldVal.none
    (aset "employee_first_name" FieldVal.none d5))))))

/-- The per-field pattern loop of `_parse_fallback_format` (lines 181-193):
first match wins; a monetary capture whose `float` fails is caught
(`except ValueError: continue`) and the next pattern is tried. -/
def tryPats (t : List Char) (money : Bool) : List Rx → Option FieldVal
  | [] => Option.none
  | p :: ps =>
    match reSearch p t with
    | some m =>
      let val := pyStrip ((capGet 1 m).filter (fun c => !(c == ',')))
      if money then
        match pyFloat val with
        | some v => some (.num v)
        | Option.none => tryPats t money ps
      else some (.str val)
    | Option.none => tryPats t money ps

/-- Final value of one fallback field: the loop result, with the numeric
zero default (lines 195-197) for monetary fields and `None` otherwise. -/
def fallback_field (t : List Char) (money : Bool) (pats : List Rx) : FieldVal :=
  match tryPats t money pats with
  | some v => v
  | Option.none => if money then .num 0 else FieldVal.none

/-- `W2Parser._parse_fallback_format` (lines 153-210): the four pattern-table
fields in dict order, then the `if field not in data` default loops. -/
def parse_fallback_format (t : List Char) : W2Record :=
  let d0 : W2Record :=
    aset "federal_withholding" (fallback_field t true [patFed1F, patFed2F])
      (aset "wages" (fallback_field t true [patWages1F, patWages2F])
        (aset "employer_ein" (fallback_field t false [patEin1F, patEin2F])
          (aset "employee_ssn" (fallback_field t false [patSsnDashF, patSsnBareF]) [])))
  setdefault "state_withholding" (.num 0) (setdefault "state_wages" (.num 0)
    (setdefault "medicare_tax" (.num 0) (setdefault "medicare_wages" (.num 0)
    (setdefault "social_security_tax" (.num 0)
    (setdefault "social_security_wages" (.num 0)
    (setdefault "employer_state_id" FieldVal.none (setdefault "state" FieldVal.none
    (setdefault "employee_last_name" FieldVal.none
    (setdefault "employee_first_name" FieldVal.none
    (setdefault "employer_name" FieldVal.none d0))))))))))

/-! ### Dialect classification and `_parse_text` -/

inductive Dialect where
  | clean
  | jumbled
  | fallback
deriving DecidableEq, Repr

/-- Diagnostic substring for the clean dialect (line 47). -/
def cleanDiag : List Char := "Employee's social security number:".data

/-- Diagnostic substring for the jumbled dialect, typo included (line 50). -/
def jumbledDiag : List Char := "Employer identitication number (EIN)".data

/-- The dispatch of `_parse_text` (lines 46-54): ordered, short-circuit,
case-sensitive substring checks. -/
def classify (t : List Char) : Dialect :=
  if containsSub cleanDiag t && containsSub ['$'] t then .clean
  else if containsSub jumbledDiag t then .jumbled
  else .fallback

/-- `W2Parser._parse_text` (lines 38-56): raise `W2ParseError` on empty
input, else normalize whitespace, classify, and run the dialect handler. -/
def parse_text (txt : List Char) : Except PyErr W2Record :=
  if txt = [] then .error .w2ParseError
  else
    match classify (clean_text txt) with
    | .clean => parse_clean_format (clean_text txt)
    | .jumbled => parse_jumbled_format (clean_text txt)
    | .fallback => .ok (parse_fallback_format (clean_text txt))

/-! ### `parse_file`, PDF branch (lines 269-290)

The I/O capabilities are abstracted: `raw` is the text layer extracted by
`pdfplumber` over all pages, and `ocrOut` is what the OCR adapter would
return on the rendered first page.  When the stripped text layer is shorter
than 50 characters the code replaces `raw` with the OCR output; either way
the modality component of the result is the string `'pdf'`.  The outer
`except` wraps any exception into `W2ParseError`. -/
def parse_file_pdf (raw ocrOut : List Char) : Except PyErr (W2Record × String) :=
  match parse_text (if (pyStrip raw).length < 50 then ocrOut else raw) with
  | .ok d => .ok (d, "pdf")
  | .error _ => .error .w2ParseError

/-! ### Skew-angle normalization (`_preprocess_image`, lines 237-241)

The detected angle comes from `cv2.minAreaRect` (an external capability,
not part of this repository); its legacy contract returns an angle in
`[-90, 0]`, which is the range the normalization below was written for. -/
def normalize_skew_angle (a : ℚ) : ℚ := if a < -45 then -(90 + a) else -a

/-! ### Concrete documents used by the spec's scenarios -/

/-- The clean-dialect scenario input of spec §8. -/
def c2text : List Char :=
  "Employee's social security number: 123-45-6789 Wages, tips, other compensation: $50,000.00".data

/-- What the code actually extracts from `c2text`. -/
def c2record : W2Record :=
  [("employee_ssn", FieldVal.str "123-45-6789".data), ("employer_ein", FieldVal.none),
   ("employer_name", FieldVal.none), ("employee_first_name", FieldVal.none),
   ("employee_last_name", FieldVal.none), ("wages", FieldVal.num 0),
   ("federal_withholding", FieldVal.num 0), ("social_security_wages", FieldVal.num 0),
   ("social_security_tax", FieldVal.num 0), ("medicare_wages", FieldVal.num 0),
   ("medicare_tax", FieldVal.num 0), ("state", FieldVal.none),
   ("employer_state_id", FieldVal.none), ("state_wages", FieldVal.num 0),
   ("state_withholding", FieldVal.num 0)]

/-- The jumbled-dialect scenario input of spec §8: the diagnostic label run
immediately followed by the digits `12-3456789 45000 5000`. -/
def c3text : List Char :=
  "Employer identitication number (EIN) 1 Wages, tips, other compensation 2 Federal income tax withheld 12-3456789 45000 5000".data

/-- The same document with the EIN hyphen removed. -/
def c3textNoHyphen : List Char :=
  "Employer identitication number (EIN) 1 Wages, tips, other compensation 2 Federal income tax withheld 123456789 45000 5000".data

/-- The fully-defaulted record the jumbled handler produces when none of
its block patterns match. -/
def jumbledDefaultRecord : W2Record :=
  [("employer_ein", FieldVal.none), ("wages", FieldVal.num 0),
   ("federal_withholding", FieldVal.num 0), ("social_security_wages", FieldVal.num 0),
   ("social_security_tax", FieldVal.num 0), ("medicare_wages", FieldVal.num 0),
   ("medicare_tax", FieldVal.num 0), ("employer_name", FieldVal.none),
   ("employee_ssn", FieldVal.none), ("employee_first_name", FieldVal.none),
   ("employee_last_name", FieldVal.none), ("state", FieldVal.none),
   ("employer_state_id", FieldVal.none), ("state_wages", FieldVal.num 0),
   ("state_withholding", FieldVal.num 0)]

/-- The fully-defaulted record of the fallback handler (also what any
unrecognizable non-empty document produces). -/
def defaultedW2Record : W2Record :=
  [("employee_ssn", FieldVal.none), ("employer_ein", FieldVal.none),
   ("wages", FieldVal.num 0), ("federal_withholding", FieldVal.num 0),
   ("employer_name", FieldVal.none), ("employee_first_name", FieldVal.none),
   ("employee_last_name", FieldVal.none), ("state", FieldVal.none),
   ("employer_state_id", FieldVal.none), ("social_security_wages", FieldVal.num 0),
   ("social_security_tax", FieldVal.num 0), ("medicare_wages", FieldVal.num 0),
   ("medicare_tax", FieldVal.num 0), ("state_wages", FieldVal.num 0),
   ("state_withholding", FieldVal.num 0)]

/-- A clean-dialect document whose wages capture (`1.2.3`) fails `float`. -/
def badWagesCleanText : List Char :=
  "Employee's social security number: 111-22-3333 $ 1 Wages, tips, other compensation: 1.2.3".data

/-- A clean-dialect document whose federal-withholding capture (`5..5`)
fails `float`. -/
def badFedCleanText : List Char :=
  "Employee's social security number: 999-88-7777 $ 2 Federal income tax withheld: 5..5".data

/-- A fallback-dialect document whose first wages capture (`,,`) fails
`float` after comma removal. -/
def commaWagesText : List Char := "Wages ,,".data

/-- A document carrying the clean diagnostic label in its original case. -/
def c6textLower : List Char := "Employee's social security number: 123-45-6789 $".data

/-! ### Claim C2 (corrected): the clean-dialect scenario -/

set_option maxRecDepth 40000 in
/-- Claim C2 counterexample: on the spec's clean-dialect scenario input the
engine does select the clean dialect and extract the SSN, but the wages
field is NOT 50000.00 — the clean wages pattern requires the box number `1`
directly before ` Wages, tips, other compensation`, which this input lacks,
so wages falls back to the 0.0 default. -/
theorem c2_scenario_wages_not_fifty_thousand :
    classify (clean_text c2text) = Dialect.clean ∧
    parse_text c2text = Except.ok c2record ∧
    alookup "wages" c2record ≠ some (FieldVal.num 50000) :=
  ⟨rfl, rfl, by decide⟩

set_option maxRecDepth 40000 in
/-- Claim C2 amended: on the scenario input the clean dialect is selected
and `employee_ssn = "123-45-6789"`, but `wages = 0.0` (the label in the
input is not preceded by the box number `1` that the clean wages pattern
anchors on). -/
theorem c2_scenario_clean_ssn_captured_wages_zero :
    classify (clean_text c2text) = Dialect.clean ∧
    parse_text c2text = Except.ok c2record ∧
    alookup "employee_ssn" c2record = some (FieldVal.str "123-45-6789".data) ∧
    alookup "wages" c2record = some (FieldVal.num 0) :=
  ⟨rfl, rfl, by decide, by decide⟩

/-! ### Claim C3 (corrected): the jumbled-dialect scenario -/

set_option maxRecDepth 40000 in
/-- Claim C3 counterexample: on the spec's jumbled-dialect scenario input
(label run followed by `12-3456789 45000 5000`) the block regex does not
match at all — its EIN capture class `[A-Z0-9]+` cannot cross the hyphen —
so `employer_ein` is `None`, not `"12-3456789"`. -/
theorem c3_scenario_hyphenated_ein_not_matched :
    parse_text c3text = Except.ok jumbledDefaultRecord ∧
    alookup "employer_ein" jumbledDefaultRecord ≠ some (FieldVal.str "12-3456789".data) :=
  ⟨rfl, by decide⟩

set_option maxRecDepth 40000 in
/-- Claim C3 amended: on the scenario input the whole EIN/wages/withholding
block fails (hyphen not matched by `[A-Z0-9]+`), leaving
`employer_ein = None`, `wages = 0.0`, `federal_withholding = 0.0`; with a
hyphen-free EIN the block does distribute the three numeric tokens
positionally (`"123456789"`, 45000.0, 5000.0). -/
theorem c3_scenario_block_requires_unhyphenated_ein :
    (parse_text c3text = Except.ok jumbledDefaultRecord ∧
      alookup "employer_ein" jumbledDefaultRecord = some FieldVal.none ∧
      alookup "wages" jumbledDefaultRecord = some (FieldVal.num 0) ∧
      alookup "federal_withholding" jumbledDefaultRecord = some (FieldVal.num 0)) ∧
    ((parse_text c3textNoHyphen).map (alookup "employer_ein") =
        Except.ok (some (FieldVal.str "123456789".data)) ∧
      (parse_text c3textNoHyphen).map (alookup "wages") =
        Except.ok (some (FieldVal.num 45000)) ∧
      (parse_text c3textNoHyphen).map (alookup "federal_withholding") =
        Except.ok (some (FieldVal.num 5000))) :=
  ⟨⟨rfl, by decide, by decide, by decide⟩, ⟨rfl, rfl, rfl⟩⟩

/-! ### Claim C1 (corrected): failure semantics of `_parse_text` -/

set_option maxRecDepth 40000 in
/-- Claim C1 counterexample: a non-empty clean-dialect document whose wages
capture is `1.2.3` makes `_parse_text` raise — the uncaught `ValueError`
from `float("1.2.3")` — so non-empty normalized text does not always return
a result. -/
theorem c1_nonempty_clean_raises_untyped_value_error :
    badWagesCleanText ≠ [] ∧
    parse_text badWagesCleanText = Except.error PyErr.valueError :=
  ⟨by decide, rfl⟩

/-! ### Claim C4 (corrected): PDF modality -/

set_option maxRecDepth 40000 in
/-- Claim C4 counterexample: with an empty extracted text layer (length
under the 50-character threshold) the OCR fallback is taken, yet the
modality `parse_file` returns is the string `'pdf'`, not `'pdf_scanned'`. -/
theorem c4_modality_is_pdf_not_pdf_scanned :
    parse_file_pdf [] ['a'] = Except.ok (defaultedW2Record, "pdf") ∧
    ("pdf" : String) ≠ "pdf_scanned" :=
  ⟨rfl, by decide⟩

/-- Claim C4 amended: when the stripped text layer is below the
50-character threshold, `parse_file` does fall back to OCR of the rendered
first page (the parsed text is the OCR output), but the modality returned
for every successful PDF parse is `'pdf'` — the code draws no
`pdf_scanned` / `pdf_text` distinction. -/
theorem c4_pdf_modality_uniform (raw ocrOut : List Char) (r : W2Record) (m : String)
    (h : parse_file_pdf raw ocrOut = Except.ok (r, m)) :
    m = "pdf" ∧ ((pyStrip raw).length < 50 → parse_text ocrOut = Except.ok r) := by
  unfold parse_file_pdf at h
  by_cases hlt : (pyStrip raw).length < 50
  · rw [if_pos hlt] at h
    cases hp : parse_text ocrOut with
    | ok d =>
      rw [hp] at h
      injection h with h'
      injection h' with h1 h2
      subst h1
      exact ⟨h2.symm, fun _ => rfl⟩
    | error e => rw [hp] at h; cases h
  · rw [if_neg hlt] at h
    cases hp : parse_text raw with
    | ok d =>
      rw [hp] at h
      injection h with h'
      injection h' with h1 h2
      exact ⟨h2.symm, fun hc => absurd hc hlt⟩
    | error e => rw [hp] at h; cases h

set_option maxRecDepth 40000 in
/-- Witness for `c4_pdf_modality_uniform` at a concrete document. -/
theorem c4_pdf_modality_uniform_witness :
    ("pdf" : String) = "pdf" ∧
      ((pyStrip ([] : List Char)).length < 50 →
        parse_text ['a'] = Except.ok defaultedW2Record) :=
  c4_pdf_modality_uniform [] ['a'] defaultedW2Record "pdf" rfl

/-! ### Claim C5 (corrected): monetary conversion failure -/

set_option maxRecDepth 40000 in
/-- Claim C5 counterexample: in the clean dialect a captured monetary
string that fails numeric parsing (`5..5`) is NOT treated as a missing
field: the extraction raises (`float` `ValueError`, unguarded at lines
61-66) instead of yielding the zero default. -/
theorem c5_clean_money_parse_failure_raises :
    parse_text badFedCleanText = Except.error PyErr.valueError := rfl

/-- Claim C5 amended: the swallow-and-default behaviour holds in the
fallback dialect only — there a monetary capture whose `float` fails is
treated identically to a pattern with no match (the loop moves on to the
next pattern, ending in the zero default), while the clean dialect raises. -/
theorem c5_fallback_money_failure_skips (t : List Char) (p : Rx) (ps : List Rx) (m : Caps)
    (h : reSearch p t = some m)
    (hf : pyFloat (pyStrip ((capGet 1 m).filter (fun c => !(c == ',')))) = Option.none) :
    tryPats t true (p :: ps) = tryPats t true ps := by
  conv_lhs => simp only [tryPats]
  rw [h]
  dsimp only
  rw [hf]
  simp

set_option maxRecDepth 40000 in
/-- Witness for `c5_fallback_money_failure_skips`: the first fallback wages
pattern on `"Wages ,,"` captures `",,"`, whose conversion fails. -/
theorem c5_fallback_money_failure_skips_witness :
    tryPats commaWagesText true [patWages1F, patWages2F] =
      tryPats commaWagesText true [patWages2F] :=
  c5_fallback_money_failure_skips commaWagesText patWages1F [patWages2F]
    [(1, [',', ','])] rfl rfl

/-! ### Claim C6 (corrected): classification case sensitivity -/

/-- Claim C6 counterexample: uppercasing the document changes the selected
dialect — the original text is classified clean, its uppercased image
(which still contains the label and the currency symbol, but in the wrong
case) falls through to the fallback dialect. -/
theorem c6_classification_changes_under_case_change :
    classify c6textLower = Dialect.clean ∧
    classify (c6textLower.map upperCh) = Dialect.fallback :=
  ⟨rfl, rfl⟩

/-- Claim C6 amended: dialect classification is case-SENSITIVE — a text is
classified clean exactly when it contains the diagnostic label
`"Employee's social security number:"` in its original case together with
`$`; the field regexes use `re.I`, the dispatch's `in` checks do not. -/
theorem c6_exact_case_clean_dispatch (t : List Char)
    (h1 : containsSub cleanDiag t = true) (h2 : containsSub ['$'] t = true) :
    classify t = Dialect.clean := by
  unfold classify
  rw [h1, h2]
  rfl

/-- Witness for `c6_exact_case_clean_dispatch`. -/
theorem c6_exact_case_clean_dispatch_witness : classify c6textLower = Dialect.clean :=
  c6_exact_case_clean_dispatch c6textLower rfl rfl

/-! ### Claim C10 (confirmed): whitespace-only input -/

/-- Inside a whitespace run, the rest of an all-whitespace tail is
swallowed entirely. -/
theorem clean_aux_true_of_all_space (l : List Char) (h : l.all isSpaceCh = true) :
    clean_aux true l = [] := by
  induction l with
  | nil => rfl
  | cons c cs ih =>
    rw [List.all_cons, Bool.and_eq_true] at h
    simp [clean_aux, h.1, ih h.2]

/-- A non-empty all-whitespace text normalizes to a single space — never to
the empty string. -/
theorem clean_text_all_space (c : Char) (cs : List Char)
    (hc : isSpaceCh c = true) (hcs : cs.all isSpaceCh = true) :
    clean_text (c :: cs) = [' '] := by
  simp [clean_text, clean_aux, hc, clean_aux_true_of_all_space cs hcs]

set_option maxRecDepth 40000 in
/-- Claim C10: a non-empty whitespace-only input passes the emptiness check
(which precedes normalization), normalizes to a single space, reaches the
fallback dialect, and yields the fully-defaulted record — no exception. -/
theorem c10_whitespace_only_fully_defaulted (txt : List Char)
    (hne : txt ≠ []) (hws : txt.all isSpaceCh = true) :
    parse_text txt = Except.ok defaultedW2Record := by
  obtain ⟨c, cs, rfl⟩ : ∃ c cs, txt = c :: cs := by
    cases txt with
    | nil => exact absurd rfl hne
    | cons c cs => exact ⟨c, cs, rfl⟩
  rw [List.all_cons, Bool.and_eq_true] at hws
  have hclean : clean_text (c :: cs) = [' '] := clean_text_all_space c cs hws.1 hws.2
  unfold parse_text
  rw [if_neg hne, hclean]
  rfl

set_option maxRecDepth 40000 in
/-- Witness for `c10_whitespace_only_fully_defaulted`. -/
theorem c10_whitespace_only_fully_defaulted_witness :
    parse_text [' ', '\t'] = Except.ok defaultedW2Record :=
  c10_whitespace_only_fully_defaulted [' ', '\t'] (by decide) (by decide)

/-! ### Claim C8 (confirmed): skew-angle normalization bounds -/

/-- Claim C8: for every detected angle in the legacy `cv2.minAreaRect`
output range `[-90, 0]`, the normalization of `_preprocess_image`
(lines 238-241) lands in `(-45, 45]`. -/
theorem c8_skew_angle_normalized_bounds (a : ℚ) (h : -90 ≤ a ∧ a ≤ 0) :
    -45 < normalize_skew_angle a ∧ normalize_skew_angle a ≤ 45 := by
  obtain ⟨h1, h2⟩ := h
  unfold normalize_skew_angle
  by_cases hlt : a < -45
  · rw [if_pos hlt]
    constructor <;> linarith
  · rw [if_neg hlt]
    push_neg at hlt
    constructor <;> linarith

/-- Witness for `c8_skew_angle_normalized_bounds` at a −60° detection
(normalized to −30°, i.e. within bounds). -/
theorem c8_skew_angle_normalized_bounds_witness :
    -45 < normalize_skew_angle (-60) ∧ normalize_skew_angle (-60) ≤ 45 :=
  c8_skew_angle_normalized_bounds (-60) (by norm_num)

/-! ### Claim C1 (corrected): the typed error is raised exactly on empty
input; any other failure is the untyped `ValueError` -/

/-- Error propagation through `Except.bind` cannot introduce
`W2ParseError` if neither side does. -/
theorem bindE_not_w2 {α β : Type} (x : Except PyErr α) (f : α → Except PyErr β)
    (hx : x ≠ Except.error PyErr.w2ParseError)
    (hf : ∀ a, f a ≠ Except.error PyErr.w2ParseError) :
    (x >>= f) ≠ Except.error PyErr.w2ParseError := by
  cases x with
  | error e => simpa [Bind.bind, Except.bind] using hx
  | ok a => simpa [Bind.bind, Except.bind] using hf a

/-- Inverting a successful `Except.bind`. -/
theorem bindE_ok {α β : Type} {x : Except PyErr α} {f : α → Except PyErr β} {b : β}
    (h : (x >>= f) = Except.ok b) : ∃ a, x = Except.ok a ∧ f a = Except.ok b := by
  cases x with
  | error e => simp [Bind.bind, Except.bind] at h
  | ok a => exact ⟨a, rfl, by simpa [Bind.bind, Except.bind] using h⟩

/-- The only exception `extract` can produce is the `float` `ValueError`. -/
theorem extract_not_w2 (p : Rx) (b : Bool) (t : List Char) :
    extract p b t ≠ Except.error PyErr.w2ParseError := by
  unfold extract
  cases reSearch p t with
  | none => simp
  | some m =>
    cases b with
    | false => simp
    | true =>
      dsimp only
      cases pyFloat (normalize_money (capGet 1 m)) with
      | none => simp
      | some v => simp

/-- Same for the bare `float` of the jumbled handler. -/
theorem toF_not_w2 (cs : List Char) : toF cs ≠ Except.error PyErr.w2ParseError := by
  unfold toF
  cases pyFloat cs with
  | none => simp
  | some v => simp

theorem parse_clean_format_not_w2 (t : List Char) :
    parse_clean_format t ≠ Except.error PyErr.w2ParseError := by
  unfold parse_clean_format
  refine bindE_not_w2 _ _ (extract_not_w2 _ _ _) fun a₁ => ?_
  refine bindE_not_w2 _ _ (extract_not_w2 _ _ _) fun a₂ => ?_
  refine bindE_not_w2 _ _ (extract_not_w2 _ _ _) fun a₃ => ?_
  refine bindE_not_w2 _ _ (extract_not_w2 _ _ _) fun a₄ => ?_
  refine bindE_not_w2 _ _ (extract_not_w2 _ _ _) fun a₅ => ?_
  refine bindE_not_w2 _ _ (extract_not_w2 _ _ _) fun a₆ => ?_
  refine bindE_not_w2 _ _ (extract_not_w2 _ _ _) fun a₇ => ?_
  refine bindE_not_w2 _ _ (extract_not_w2 _ _ _) fun a₈ => ?_
  refine bindE_not_w2 _ _ (extract_not_w2 _ _ _) fun a₉ => ?_
  refine bindE_not_w2 _ _ (extract_not_w2 _ _ _) fun a₁₀ => ?_
  refine bindE_not_w2 _ _ (extract_not_w2 _ _ _) fun a₁₁ => ?_
  refine bindE_not_w2 _ _ (extract_not_w2 _ _ _) fun a₁₂ => ?_
  simp [Pure.pure, Except.pure]

theorem j_block_ein_not_w2 (t : List Char) :
    j_block_ein t ≠ Except.error PyErr.w2ParseError := by
  unfold j_block_ein
  cases reSearch patEinBlockJ t with
  | none => simp [Pure.pure, Except.pure]
  | some m =>
    refine bindE_not_w2 _ _ (toF_not_w2 _) fun w => ?_
    refine bindE_not_w2 _ _ (toF_not_w2 _) fun f => ?_
    simp [Pure.pure, Except.pure]

theorem j_block_ss_not_w2 (t : List Char) (d : W2Record) :
    j_block_ss t d ≠ Except.error PyErr.w2ParseError := by
  unfold j_block_ss
  cases reSearch patSsBlockJ t with
  | none => simp [Pure.pure, Except.pure]
  | some m =>
    refine bindE_not_w2 _ _ (toF_not_w2 _) fun a => ?_
    refine bindE_not_w2 _ _ (toF_not_w2 _) fun b => ?_
    simp [Pure.pure, Except.pure]

theorem j_block_med_not_w2 (t : List Char) (d : W2Record) :
    j_block_med t d ≠ Except.error PyErr.w2ParseError := by
  unfold j_block_med
  cases reSearch patMedBlockJ t with
  | none => simp [Pure.pure, Except.pure]
  | some m =>
    refine bindE_not_w2 _ _ (toF_not_w2 _) fun a => ?_
    refine bindE_not_w2 _ _ (toF_not_w2 _) fun b => ?_
    simp [Pure.pure, Except.pure]

theorem parse_jumbled_format_not_w2 (t : List Char) :
    parse_jumbled_format t ≠ Except.error PyErr.w2ParseError := by
  unfold parse_jumbled_format
  refine bindE_not_w2 _ _ (j_block_ein_not_w2 _) fun d1 => ?_
  refine bindE_not_w2 _ _ (j_block_ss_not_w2 _ _) fun d2 => ?_
  refine bindE_not_w2 _ _ (j_block_med_not_w2 _ _) fun d3 => ?_
  simp [Pure.pure, Except.pure]

/-- Claim C1 amended: `_parse_text` raises the typed `W2ParseError` exactly
when the input text is empty (equivalently: empty after whitespace
normalization, which never maps non-empty text to empty); a non-empty
text, however, does not always return a result — the clean dialect can
raise an untyped `ValueError` instead, as the counterexample shows. -/
theorem c1_typed_error_iff_empty (txt : List Char) :
    parse_text txt = Except.error PyErr.w2ParseError ↔ txt = [] := by
  constructor
  · intro h
    by_contra hne
    rw [parse_text, if_neg hne] at h
    cases hcl : classify (clean_text txt) <;> rw [hcl] at h <;> dsimp only at h
    · exact parse_clean_format_not_w2 _ h
    · exact parse_jumbled_format_not_w2 _ h
    · cases h
  · rintro rfl
    rfl

/-! ### Claim C7 (confirmed): total field coverage -/

/-- The output schema: the fifteen field names of the claim. -/
def schemaKeys : List String :=
  ["employee_ssn", "employer_ein", "employer_name", "employee_first_name",
   "employee_last_name", "wages", "federal_withholding", "social_security_wages",
   "social_security_tax", "medicare_wages", "medicare_tax", "state",
   "employer_state_id", "state_wages", "state_withholding"]

theorem j_block_ein_shape {t : List Char} {d : W2Record}
    (h : j_block_ein t = Except.ok d) :
    ∃ e w f, d = aset "federal_withholding" (FieldVal.num f) (aset "wages" (FieldVal.num w)
      (aset "employer_ein" e [])) := by
  unfold j_block_ein at h
  cases hs : reSearch patEinBlockJ t with
  | none =>
    rw [hs] at h
    dsimp only at h
    simp only [Pure.pure, Except.pure, Except.ok.injEq] at h
    exact ⟨FieldVal.none, 0, 0, h.symm⟩
  | some m =>
    rw [hs] at h
    dsimp only at h
    obtain ⟨w, hw, h⟩ := bindE_ok h
    obtain ⟨f, hf, h⟩ := bindE_ok h
    simp only [Pure.pure, Except.pure, Except.ok.injEq] at h
    exact ⟨FieldVal.str (capGet 1 m), w, f, h.symm⟩

theorem j_block_ss_shape {t : List Char} {d d' : W2Record}
    (h : j_block_ss t d = Except.ok d') :
    ∃ a b, d' = aset "social_security_tax" (FieldVal.num b)
      (aset "social_security_wages" (FieldVal.num a) d) := by
  unfold j_block_ss at h
  cases hs : reSearch patSsBlockJ t with
  | none =>
    rw [hs] at h
    dsimp only at h
    simp only [Pure.pure, Except.pure, Except.ok.injEq] at h
    exact ⟨0, 0, h.symm⟩
  | some m =>
    rw [hs] at h
    dsimp only at h
    obtain ⟨a, ha, h⟩ := bindE_ok h
    obtain ⟨b, hb, h⟩ := bindE_ok h
    simp only [Pure.pure, Except.pure, Except.ok.injEq] at h
    exact ⟨a, b, h.symm⟩

theorem j_block_med_shape {t : List Char} {d d' : W2Record}
    (h : j_block_med t d = Except.ok d') :
    ∃ a b, d' = aset "medicare_tax" (FieldVal.num b)
      (aset "medicare_wages" (FieldVal.num a) d) := by
  unfold j_block_med at h
  cases hs : reSearch patMedBlockJ t with
  | none =>
    rw [hs] at h
    dsimp only at h
    simp only [Pure.pure, Except.pure, Except.ok.injEq] at h
    exact ⟨0, 0, h.symm⟩
  | some m =>
    rw [hs] at h
    dsimp only at h
    obtain ⟨a, ha, h⟩ := bindE_ok h
    obtain ⟨b, hb, h⟩ := bindE_ok h
    simp only [Pure.pure, Except.pure, Except.ok.injEq] at h
    exact ⟨a, b, h.symm⟩

theorem j_block_addr_shape (t : List Char) (d : W2Record) :
    ∃ v, j_block_addr t d = aset "employer_name" v d := by
  unfold j_block_addr
  cases reSearch patAddrBlockJ t with
  | none => exact ⟨FieldVal.none, rfl⟩
  | some m => exact ⟨_, rfl⟩

theorem j_block_ssn_shape (t : List Char) (d : W2Record) :
    ∃ v, j_block_ssn t d = aset "employee_ssn" v d := by
  unfold j_block_ssn
  cases reSearch patSsnJ t with
  | none => exact ⟨FieldVal.none, rfl⟩
  | some m => exact ⟨_, rfl⟩

/-- Setting an absent key appends it. -/
theorem aset_absent (k : String) (v : FieldVal) (d : W2Record)
    (h : ahas k d = false) : aset k v d = d ++ [(k, v)] := by
  induction d with
  | nil => rfl
  | cons p rest ih =>
    obtain ⟨k', v'⟩ := p
    rw [ahas, Bool.or_eq_false_iff] at h
    simp [aset, h.1, ih h.2]

/-- `setdefault` on an absent key appends it. -/
theorem setdefault_absent (k : String) (v : FieldVal) (d : W2Record)
    (h : ahas k d = false) : setdefault k v d = d ++ [(k, v)] := by
  simp [setdefault, h, aset_absent k v d h]

/-- The fallback record, flattened: the four pattern-table fields in their
dict order followed by the eleven appended defaults. -/
theorem parse_fallback_format_eq (txt : List Char) :
    parse_fallback_format txt =
      [("employee_ssn", fallback_field txt false [patSsnDashF, patSsnBareF]),
       ("employer_ein", fallback_field txt false [patEin1F, patEin2F]),
       ("wages", fallback_field txt true [patWages1F, patWages2F]),
       ("federal_withholding", fallback_field txt true [patFed1F, patFed2F]),
       ("employer_name", FieldVal.none), ("employee_first_name", FieldVal.none),
       ("employee_last_name", FieldVal.none), ("state", FieldVal.none),
       ("employer_state_id", FieldVal.none),
       ("social_security_wages", FieldVal.num 0), ("social_security_tax", FieldVal.num 0),
       ("medicare_wages", FieldVal.num 0), ("medicare_tax", FieldVal.num 0),
       ("state_wages", FieldVal.num 0), ("state_withholding", FieldVal.num 0)] := by
  unfold parse_fallback_format
  dsimp only
  generalize fallback_field txt false [patSsnDashF, patSsnBareF] = F1
  generalize fallback_field txt false [patEin1F, patEin2F] = F2
  generalize fallback_field txt true [patWages1F, patWages2F] = F3
  generalize fallback_field txt true [patFed1F, patFed2F] = F4
  rw [show aset "federal_withholding" F4 (aset "wages" F3 (aset "employer_ein" F2
      (aset "employee_ssn" F1 []))) =
    [("employee_ssn", F1), ("employer_ein", F2), ("wages", F3),
     ("federal_withholding", F4)] from rfl]
  rw [setdefault_absent "employer_name" _ _ (by rfl)]
  rw [setdefault_absent "employee_first_name" _ _ (by rfl)]
  rw [setdefault_absent "employee_last_name" _ _ (by rfl)]
  rw [setdefault_absent "state" _ _ (by rfl)]
  rw [setdefault_absent "employer_state_id" _ _ (by rfl)]
  rw [setdefault_absent "social_security_wages" _ _ (by rfl)]
  rw [setdefault_absent "social_security_tax" _ _ (by rfl)]
  rw [setdefault_absent "medicare_wages" _ _ (by rfl)]
  rw [setdefault_absent "medicare_tax" _ _ (by rfl)]
  rw [setdefault_absent "state_wages" _ _ (by rfl)]
  rw [setdefault_absent "state_withholding" _ _ (by rfl)]
  rfl

/-- The record built by the jumbled handler, flattened into its insertion
order (all its keys are distinct, so every `aset` appends). -/
theorem jumbled_chain_eq (e v4 v5 : FieldVal) (w f a1 b1 a2 b2 : ℚ) :
    aset "state_withholding" (FieldVal.num 0) (aset "state_wages" (FieldVal.num 0)
      (aset "employer_state_id" FieldVal.none (aset "state" FieldVal.none
      (aset "employee_last_name" FieldVal.none
      (aset "employee_first_name" FieldVal.none
      (aset "employee_ssn" v5 (aset "employer_name" v4
      (aset "medicare_tax" (FieldVal.num b2) (aset "medicare_wages" (FieldVal.num a2)
      (aset "social_security_tax" (FieldVal.num b1)
      (aset "social_security_wages" (FieldVal.num a1)
      (aset "federal_withholding" (FieldVal.num f) (aset "wages" (FieldVal.num w)
      (aset "employer_ein" e [])))))))))))))) =
      [("employer_ein", e), ("wages", FieldVal.num w), ("federal_withholding", FieldVal.num f),
       ("social_security_wages", FieldVal.num a1), ("social_security_tax", FieldVal.num b1),
       ("medicare_wages", FieldVal.num a2), ("medicare_tax", FieldVal.num b2),
       ("employer_name", v4), ("employee_ssn", v5),
       ("employee_first_name", FieldVal.none), ("employee_last_name", FieldVal.none),
       ("state", FieldVal.none), ("employer_state_id", FieldVal.none),
       ("state_wages", FieldVal.num 0), ("state_withholding", FieldVal.num 0)] := by
  rw [aset_absent "wages" _ _ (by rfl)]
  rw [aset_absent "federal_withholding" _ _ (by rfl)]
  rw [aset_absent "social_security_wages" _ _ (by rfl)]
  rw [aset_absent "social_security_tax" _ _ (by rfl)]
  rw [aset_absent "medicare_wages" _ _ (by rfl)]
  rw [aset_absent "medicare_tax" _ _ (by rfl)]
  rw [aset_absent "employer_name" _ _ (by rfl)]
  rw [aset_absent "employee_ssn" _ _ (by rfl)]
  rw [aset_absent "employee_first_name" _ _ (by rfl)]
  rw [aset_absent "employee_last_name" _ _ (by rfl)]
  rw [aset_absent "state" _ _ (by rfl)]
  rw [aset_absent "employer_state_id" _ _ (by rfl)]
  rw [aset_absent "state_wages" _ _ (by rfl)]
  rw [aset_absent "state_withholding" _ _ (by rfl)]
  rfl

/-- Claim C7: every dialect handler covers the whole schema — the fallback
and jumbled handlers unconditionally, the clean handler on every record it
returns. -/
theorem c7_total_field_coverage (txt : List Char) (k : String) (hk : k ∈ schemaKeys) :
    ahas k (parse_fallback_format txt) = true ∧
    (∀ r, parse_jumbled_format txt = Except.ok r → ahas k r = true) ∧
    (∀ r, parse_clean_format txt = Except.ok r → ahas k r = true) := by
  refine ⟨?_, ?_, ?_⟩
  · rw [parse_fallback_format_eq]
    fin_cases hk <;> rfl
  · intro r hr
    unfold parse_jumbled_format at hr
    obtain ⟨d1, h1, hr⟩ := bindE_ok hr
    obtain ⟨d2, h2, hr⟩ := bindE_ok hr
    obtain ⟨d3, h3, hr⟩ := bindE_ok hr
    dsimp only at hr
    generalize hq : j_block_addr txt d3 = d4 at hr
    obtain ⟨v5, h5⟩ := j_block_ssn_shape txt d4
    rw [h5] at hr
    simp only [Pure.pure, Except.pure, Except.ok.injEq] at hr
    subst hr
    obtain ⟨v4, h4⟩ := j_block_addr_shape txt d3
    rw [h4] at hq
    subst hq
    obtain ⟨e, w, f, rfl⟩ := j_block_ein_shape h1
    obtain ⟨a1, b1, rfl⟩ := j_block_ss_shape h2
    obtain ⟨a2, b2, rfl⟩ := j_block_med_shape h3
    rw [jumbled_chain_eq]
    fin_cases hk <;> rfl
  · intro r hr
    unfold parse_clean_format at hr
    obtain ⟨v1, e1, hr⟩ := bindE_ok hr
    obtain ⟨v2, e2, hr⟩ := bindE_ok hr
    obtain ⟨v3, e3, hr⟩ := bindE_ok hr
    obtain ⟨v4, e4, hr⟩ := bindE_ok hr
    obtain ⟨v5, e5, hr⟩ := bindE_ok hr
    obtain ⟨v6, e6, hr⟩ := bindE_ok hr
    obtain ⟨v7, e7, hr⟩ := bindE_ok hr
    obtain ⟨v8, e8, hr⟩ := bindE_ok hr
    obtain ⟨v9, e9, hr⟩ := bindE_ok hr
    obtain ⟨v10, e10, hr⟩ := bindE_ok hr
    obtain ⟨v11, e11, hr⟩ := bindE_ok hr
    obtain ⟨v12, e12, hr⟩ := bindE_ok hr
    simp only [Pure.pure, Except.pure, Except.ok.injEq] at hr
    subst hr
    fin_cases hk <;> rfl

/-- Witness for `c7_total_field_coverage` at a concrete document and key. -/
theorem c7_total_field_coverage_witness :
    ahas "employee_ssn" (parse_fallback_format ['a']) = true :=
  (c7_total_field_coverage ['a'] "employee_ssn" (by decide)).1

/-! ### Claim C9 (confirmed): numeric-coercion idempotence

The supporting theory: `digitsVal` of a rendered numeral is the numeral,
and `pyFloat` of `to_decimal_string n k` recovers `n / 10^k` exactly. -/

/-- Value of a digit list, least significant digit first. -/
def valRev : List ℕ → ℕ
  | [] => 0
  | d :: ds => d + 10 * valRev ds

theorem digitsVal_foldl_from (l : List Char) :
    ∀ a : ℕ, l.foldl (fun a c => a * 10 + digitVal c) a = a * 10 ^ l.length + digitsVal l := by
  induction l with
  | nil => intro a; simp [digitsVal]
  | cons c cs ih =>
    intro a
    rw [List.foldl_cons, ih (a * 10 + digitVal c)]
    have hc : digitsVal (c :: cs) = digitVal c * 10 ^ cs.length + digitsVal cs := by
      rw [digitsVal, List.foldl_cons]
      simpa using ih (digitVal c)
    rw [hc]
    simp [List.length_cons, pow_succ]
    ring

theorem digitsVal_append (xs ys : List Char) :
    digitsVal (xs ++ ys) = digitsVal xs * 10 ^ ys.length + digitsVal ys := by
  rw [digitsVal, List.foldl_append]
  exact digitsVal_foldl_from ys (digitsVal xs)

theorem valRev_natDigsRevAux :
    ∀ fuel n : ℕ, n ≤ fuel → valRev (natDigsRevAux fuel n) = n := by
  intro fuel
  induction fuel with
  | zero =>
    intro n hn
    interval_cases n
    simp [natDigsRevAux, valRev]
  | succ f ih =>
    intro n hn
    rw [natDigsRevAux]
    by_cases h : n = 0
    · simp [h, valRev]
    · rw [if_neg h, valRev]
      have hdiv : n / 10 ≤ f := by
        have h1 : n / 10 < n := Nat.div_lt_self (Nat.pos_of_ne_zero h) (by norm_num)
        omega
      rw [ih (n / 10) hdiv]
      omega

theorem natDigsRevAux_lt_ten :
    ∀ fuel n d : ℕ, d ∈ natDigsRevAux fuel n → d < 10 := by
  intro fuel
  induction fuel with
  | zero => intro n d hd; simp [natDigsRevAux] at hd
  | succ f ih =>
    intro n d hd
    rw [natDigsRevAux] at hd
    by_cases h : n = 0
    · simp [h] at hd
    · rw [if_neg h, List.mem_cons] at hd
      rcases hd with rfl | hd
      · exact Nat.mod_lt _ (by norm_num)
      · exact ih _ _ hd

theorem natDigsRevAux_length_le :
    ∀ fuel n k : ℕ, n ≤ fuel → n < 10 ^ k → (natDigsRevAux fuel n).length ≤ k := by
  intro fuel
  induction fuel with
  | zero =>
    intro n k hn _
    interval_cases n
    simp [natDigsRevAux]
  | succ f ih =>
    intro n k hn hk
    rw [natDigsRevAux]
    by_cases h : n = 0
    · simp [h]
    · rw [if_neg h, List.length_cons]
      cases k with
      | zero =>
        simp at hk
        omega
      | succ k' =>
        have hdiv : n / 10 ≤ f := by
          have h1 : n / 10 < n := Nat.div_lt_self (Nat.pos_of_ne_zero h) (by norm_num)
          omega
        have hlt : n / 10 < 10 ^ k' := by
          rw [Nat.div_lt_iff_lt_mul (by norm_num : (0:ℕ) < 10)]
          calc n < 10 ^ (k' + 1) := hk
            _ = 10 ^ k' * 10 := by ring
        have := ih (n / 10) k' hdiv hlt
        omega

theorem digitVal_digitChar (d : ℕ) (h : d < 10) : digitVal (digitChar d) = d := by
  interval_cases d <;> rfl

theorem isDigitCh_digitChar (d : ℕ) (h : d < 10) : isDigitCh (digitChar d) = true := by
  interval_cases d <;> rfl

theorem digitsVal_rev_map (l : List ℕ) (hl : ∀ d ∈ l, d < 10) :
    digitsVal ((l.map digitChar).reverse) = valRev l := by
  induction l with
  | nil => rfl
  | cons d ds ih =>
    rw [List.map_cons, List.reverse_cons, digitsVal_append]
    have hd : d < 10 := hl d (List.mem_cons_self d ds)
    have h1 : digitsVal [digitChar d] = d := by
      show List.foldl _ 0 [digitChar d] = d
      rw [List.foldl_cons, List.foldl_nil, Nat.zero_mul, Nat.zero_add]
      exact digitVal_digitChar d hd
    rw [h1, ih fun x hx => hl x (List.mem_cons_of_mem d hx), valRev]
    simp
    ring

theorem digitsVal_renderNat (n : ℕ) : digitsVal (renderNat n) = n := by
  unfold renderNat
  by_cases h : n = 0
  · subst h; rfl
  · rw [if_neg h]
    have hm := digitsVal_rev_map (natDigsRev n) fun d hd => natDigsRevAux_lt_ten n n d hd
    rw [hm]
    exact valRev_natDigsRevAux n n le_rfl

theorem renderNat_digits (n : ℕ) : ∀ c ∈ renderNat n, isDigitCh c = true := by
  unfold renderNat
  by_cases h : n = 0
  · subst h
    intro c hc
    simp at hc
    subst hc
    rfl
  · rw [if_neg h]
    intro c hc
    rw [List.mem_reverse, List.mem_map] at hc
    obtain ⟨d, hd, rfl⟩ := hc
    exact isDigitCh_digitChar d (natDigsRevAux_lt_ten n n d hd)

theorem renderNat_ne_nil (n : ℕ) : renderNat n ≠ [] := by
  unfold renderNat
  by_cases h : n = 0
  · simp [h]
  · rw [if_neg h]
    obtain ⟨m, rfl⟩ : ∃ m, n = m + 1 := ⟨n - 1, by omega⟩
    unfold natDigsRev
    rw [natDigsRevAux, if_neg (Nat.succ_ne_zero m)]
    simp

theorem renderNat_length_le (r k : ℕ) (hk : 1 ≤ k) (hr : r < 10 ^ k) :
    (renderNat r).length ≤ k := by
  unfold renderNat
  by_cases h : r = 0
  · simpa [h] using hk
  · rw [if_neg h, List.length_reverse, List.length_map]
    exact natDigsRevAux_length_le r r k le_rfl hr

theorem digitsVal_replicate_zero (m : ℕ) : digitsVal (List.replicate m '0') = 0 := by
  induction m with
  | zero => rfl
  | succ m' ih =>
    rw [List.replicate_succ]
    show List.foldl _ 0 _ = 0
    rw [List.foldl_cons]
    have : (0 * 10 + digitVal '0') = 0 := rfl
    rw [this]
    exact ih

theorem digit_floatCharOk (c : Char) (h : isDigitCh c = true) : floatCharOk c = true := by
  simp [floatCharOk, h]

theorem digit_not_dot (c : Char) (h : isDigitCh c = true) : (c == '.') = false := by
  by_cases hc : c = '.'
  · subst hc; exact absurd h (by decide)
  · simpa using hc

theorem takeWhile_append_stop (p : Char → Bool) (A : List Char) (x : Char) (B : List Char)
    (hA : ∀ c ∈ A, p c = true) (hx : p x = false) :
    (A ++ x :: B).takeWhile p = A := by
  induction A with
  | nil => simp [List.takeWhile_cons, hx]
  | cons c cs ih =>
    rw [List.cons_append, List.takeWhile_cons, hA c (List.mem_cons_self c cs)]
    rw [ih fun a ha => hA a (List.mem_cons_of_mem c ha)]
    simp

theorem dropWhile_append_stop (p : Char → Bool) (A : List Char) (x : Char) (B : List Char)
    (hA : ∀ c ∈ A, p c = true) (hx : p x = false) :
    (A ++ x :: B).dropWhile p = x :: B := by
  induction A with
  | nil => simp [List.dropWhile_cons, hx]
  | cons c cs ih =>
    rw [List.cons_append, List.dropWhile_cons, hA c (List.mem_cons_self c cs)]
    simpa using ih fun a ha => hA a (List.mem_cons_of_mem c ha)

/-- `pyFloat` on a string `A.B` with digit-only parts parses the exact
decimal value. -/
theorem pyFloat_one_dot (A B : List Char)
    (hA : ∀ c ∈ A, isDigitCh c = true) (hB : ∀ c ∈ B, isDigitCh c = true)
    (hAne : A ≠ []) :
    pyFloat (A ++ '.' :: B) =
      some (((digitsVal (A ++ B) : ℕ) : ℚ) / 10 ^ B.length) := by
  have hall : (A ++ '.' :: B).all floatCharOk = true := by
    rw [List.all_append, List.all_cons]
    have h1 : A.all floatCharOk = true :=
      List.all_eq_true.mpr fun c hc => digit_floatCharOk c (hA c hc)
    have h2 : B.all floatCharOk = true :=
      List.all_eq_true.mpr fun c hc => digit_floatCharOk c (hB c hc)
    rw [h1, h2]
    rfl
  have hdotA : '.' ∉ A := fun hmem => by
    have := digit_not_dot '.' (hA '.' hmem)
    simp at this
  have hdotB : '.' ∉ B := fun hmem => by
    have := digit_not_dot '.' (hB '.' hmem)
    simp at this
  have hcount : (A ++ '.' :: B).count '.' = 1 := by
    rw [List.count_append, List.count_cons]
    rw [List.count_eq_zero.mpr hdotA, List.count_eq_zero.mpr hdotB]
    simp
  have htake : (A ++ '.' :: B).takeWhile (fun c => !(c == '.')) = A :=
    takeWhile_append_stop _ A '.' B
      (fun c hc => by rw [digit_not_dot c (hA c hc)]; rfl) (by decide)
  have hdrop : (A ++ '.' :: B).dropWhile (fun c => !(c == '.')) = '.' :: B :=
    dropWhile_append_stop _ A '.' B
      (fun c hc => by rw [digit_not_dot c (hA c hc)]; rfl) (by decide)
  rw [pyFloat, if_pos hall, hcount]
  dsimp only
  rw [htake, hdrop]
  dsimp only [List.tail_cons]
  rw [if_neg (by simp [hAne])]

theorem floatChar_not_space (c : Char) (h : floatCharOk c = true) : isSpaceCh c = false := by
  cases hs : isSpaceCh c with
  | false => rfl
  | true =>
    exfalso
    simp only [isSpaceCh, Bool.or_eq_true, beq_iff_eq] at hs
    rcases hs with ((((rfl | rfl) | rfl) | rfl) | rfl) | rfl <;> exact absurd h (by decide)

theorem floatChar_keep (c : Char) (h : floatCharOk c = true) :
    (!(c == ',') && !(c == '$')) = true := by
  by_cases h1 : c = ','
  · subst h1; exact absurd h (by decide)
  by_cases h2 : c = '$'
  · subst h2; exact absurd h (by decide)
  simp [h1, h2]

theorem dropWhile_id (p : Char → Bool) (l : List Char) (h : ∀ c ∈ l, p c = false) :
    l.dropWhile p = l := by
  cases l with
  | nil => rfl
  | cons c cs => simp [List.dropWhile_cons, h c (List.mem_cons_self c cs)]

theorem pyStrip_id (l : List Char) (h : ∀ c ∈ l, isSpaceCh c = false) : pyStrip l = l := by
  unfold pyStrip
  rw [dropWhile_id _ _ h, dropWhile_id _ _ fun c hc => h c (List.mem_reverse.mp hc),
    List.reverse_reverse]

theorem normalize_money_id (l : List Char) (h : ∀ c ∈ l, floatCharOk c = true) :
    normalize_money l = l := by
  unfold normalize_money
  rw [List.filter_eq_self.mpr fun c hc => floatChar_keep c (h c hc)]
  exact pyStrip_id l fun c hc => floatChar_not_space c (h c hc)

theorem padZeros_digits (k : ℕ) (cs : List Char) (hcs : ∀ c ∈ cs, isDigitCh c = true) :
    ∀ c ∈ padZeros k cs, isDigitCh c = true := by
  intro c hc
  rw [padZeros, List.mem_append] at hc
  rcases hc with hc | hc
  · rw [List.eq_of_mem_replicate hc]
    rfl
  · exact hcs c hc

theorem to_decimal_string_chars (n k : ℕ) :
    ∀ c ∈ to_decimal_string n k, floatCharOk c = true := by
  intro c hc
  rw [to_decimal_string, List.mem_append, List.mem_cons] at hc
  rcases hc with hc | hc | hc
  · exact digit_floatCharOk c (renderNat_digits _ c hc)
  · subst hc; rfl
  · exact digit_floatCharOk c
      (padZeros_digits k (renderNat (n % 10 ^ k)) (renderNat_digits _) c hc)

theorem digitsVal_padZeros (k : ℕ) (cs : List Char) :
    digitsVal (padZeros k cs) = digitsVal cs := by
  rw [padZeros, digitsVal_append, digitsVal_replicate_zero]
  ring

/-- Parsing the serialization of `n / 10^k` recovers exactly `n / 10^k`. -/
theorem money_coerce_to_decimal_string (n k : ℕ) :
    money_coerce (to_decimal_string n k) = some ((n : ℚ) / 10 ^ k) := by
  rw [money_coerce, normalize_money_id _ (to_decimal_string_chars n k), to_decimal_string]
  rw [pyFloat_one_dot (renderNat (n / 10 ^ k)) (padZeros k (renderNat (n % 10 ^ k)))
      (renderNat_digits _) (padZeros_digits _ _ (renderNat_digits _)) (renderNat_ne_nil _)]
  congr 1
  rw [digitsVal_append, digitsVal_padZeros, digitsVal_renderNat, digitsVal_renderNat]
  by_cases hk : k = 0
  · subst hk
    rw [show n % 10 ^ 0 = 0 from Nat.mod_one n, show n / 10 ^ 0 = n from Nat.div_one n]
    rw [show padZeros 0 (renderNat 0) = ['0'] from rfl]
    norm_num
  · have hk1 : 1 ≤ k := Nat.one_le_iff_ne_zero.mpr hk
    have hlen : (padZeros k (renderNat (n % 10 ^ k))).length = k := by
      rw [padZeros, List.length_append, List.length_replicate]
      have hle : (renderNat (n % 10 ^ k)).length ≤ k :=
        renderNat_length_le _ k hk1 (Nat.mod_lt _ (pow_pos (by norm_num) k))
      omega
    rw [hlen]
    rw [show n / 10 ^ k * 10 ^ k + n % 10 ^ k = n by
      rw [Nat.mul_comm]
      exact Nat.div_add_mod n (10 ^ k)]

set_option maxRecDepth 4000 in
/-- Claim C9: numeric coercion is idempotent — if a string coerces to the
decimal value `v`, then re-coercing any decimal serialization of `v` yields
`v` again. -/
theorem c9_money_coerce_idempotent (s : List Char) (v : ℚ)
    (hs : money_coerce s = some v) (n k : ℕ) (hrep : (n : ℚ) / 10 ^ k = v) :
    money_coerce (to_decimal_string n k) = some v := by
  rw [← hrep]
  exact money_coerce_to_decimal_string n k

set_option maxRecDepth 40000 in
/-- Witness for `c9_money_coerce_idempotent`: `"1,234.56"` coerces to
`1234.56 = 123456 / 10^2`, whose serialization `"1234.56"` coerces back to
the same value. -/
theorem c9_money_coerce_idempotent_witness :
    money_coerce "1,234.56".data = some ((123456 : ℚ) / 10 ^ 2) ∧
    money_coerce (to_decimal_string 123456 2) = some ((123456 : ℚ) / 10 ^ 2) := by
  have h : money_coerce "1,234.56".data = some ((123456 : ℚ) / 10 ^ 2) := rfl
  exact ⟨h, c9_money_coerce_idempotent "1,234.56".data _ h 123456 2 rfl⟩
